import Mathlib

/-!
# Verification of the MoonZoon SSE connection registry (`crates/moon/src/sse.rs`)

Shallow embedding of the server-sent-events connection registry:

* `Connection` wraps the send side of an unbounded channel together with a
  session id and the `remove_session_actor_on_remove` flag (the spec's
  `cascade_on_loss`).  The channel is modelled by the list of messages
  successfully pushed (`sent`, what the paired `EventStream` will yield)
  plus a `receiverAlive` flag: a tokio unbounded-channel send succeeds
  exactly when the receive side has not been dropped, and on failure the
  `SendError` carries the undelivered message.
* `SSE` is the registry: an association list from session id to
  `Connection` standing in for the `CHashMap` (at most one entry per key,
  kept as the `keysNodup` invariant; iteration order of the hash map is
  unspecified, the list order stands in for it).
* `Sessions` models the external session-actor subsystem
  (`sessions::by_session_id()`): the set of session ids that currently
  have an actor, plus `removeCalls`, the trace of cascade-remove
  operations (each lookup-by-id-then-remove-if-found sequence the sse
  code performs against the subsystem) in the order they were made.

Session ids are `Nat`; the fresh id produced by `SessionId::new()` is
passed in explicitly as a parameter (`freshId`).
-/

namespace SSEModel

/-- The wire framing built by `Connection::send`:
`["event: ", event, "\n", "data: ", data, "\n\n"].concat()`. -/
def frameMessage (event data : String) : String :=
  String.join ["event: ", event, "\n", "data: ", data, "\n\n"]

/-- `Connection` from sse.rs, with the channel state inlined:
`sent` is the queue of messages that reached the channel (what the paired
`EventStream` yields, in order) and `receiverAlive` records whether the
receive side (`EventStream`) is still held by a consumer. -/
structure Connection where
  remove_session_actor_on_remove : Bool
  session_id : Nat
  receiverAlive : Bool
  sent : List String
deriving Repr, DecidableEq

/-- `Connection::new`: fresh channel (empty queue, consumer alive),
`remove_session_actor_on_remove = session_id.is_some()`,
`session_id = session_id.unwrap_or_else(SessionId::new)` where the
generated id is the explicit `freshId` parameter. -/
def Connection.new (session_id : Option Nat) (freshId : Nat) : Connection :=
  { remove_session_actor_on_remove := session_id.isSome
    session_id := session_id.getD freshId
    receiverAlive := true
    sent := [] }

/-- `Connection::send`: frame the event/data pair and push it onto the
unbounded channel.  The push succeeds iff the receive side is still alive;
on failure the `SendError` carries the undelivered message (modelled as the
`Except.error` payload). Returns the connection (with its channel state)
and the result. -/
def Connection.send (c : Connection) (event data : String) :
    Connection × Except String Unit :=
  let message := frameMessage event data
  if c.receiverAlive then
    ({ c with sent := c.sent ++ [message] }, Except.ok ())
  else
    (c, Except.error message)

/-- The external session-actor subsystem (`sessions::by_session_id()`):
`actors` is the set of session ids with a live actor, `removeCalls` the
trace of cascade-remove operations performed against it by the sse code. -/
structure Sessions where
  actors : List Nat
  removeCalls : List Nat
deriving Repr, DecidableEq

/-- One cascade-remove operation into the session subsystem:
`if let Some(session_actor) = sessions::by_session_id().get(session_id)
{ session_actor.remove(); }`.  The actor is removed when present; the
operation is recorded in the trace. -/
def Sessions.cascadeRemove (s : Sessions) (sid : Nat) : Sessions :=
  { actors := s.actors.filter (fun a => a ≠ sid)
    removeCalls := s.removeCalls ++ [sid] }

/-- The registry's map `connections : CHashMap<SessionId, Arc<Connection>>`,
as an association list. -/
abbrev ConnMap := List (Nat × Connection)

/-- `CHashMap::get`. -/
def lookupConn : ConnMap → Nat → Option Connection
  | [], _ => none
  | (k, c) :: rest, sid => if k = sid then some c else lookupConn rest sid

/-- `CHashMap::insert`: replace the entry for the key when present,
otherwise add a new entry. -/
def insertConn : ConnMap → Nat → Connection → ConnMap
  | [], k, c => [(k, c)]
  | (k', c') :: rest, k, c =>
    if k' = k then (k, c) :: rest else (k', c') :: insertConn rest k c

/-- `CHashMap::remove`: drop the (first) entry for the key. -/
def eraseConn : ConnMap → Nat → ConnMap
  | [], _ => []
  | (k, c) :: rest, sid => if k = sid then rest else (k, c) :: eraseConn rest sid

/-- The `SSE` registry state. -/
structure SSE where
  connections : ConnMap
deriving Repr, DecidableEq

/-- The registry invariant: at most one entry per session id. -/
def keysNodup (sse : SSE) : Prop :=
  (sse.connections.map Prod.fst).Nodup

instance (sse : SSE) : Decidable (keysNodup sse) := by
  unfold keysNodup; infer_instance

/-- `new_connection`: build a `Connection` and insert it under its session
id, replacing any previous entry for that key.  Makes no call into the
session subsystem, so the `Sessions` state passes through unchanged.
Returns the new states and the created connection. -/
def SSE.new_connection (sse : SSE) (sys : Sessions)
    (session_id : Option Nat) (freshId : Nat) :
    (SSE × Sessions) × Connection :=
  let c := Connection.new session_id freshId
  (({ connections := insertConn sse.connections c.session_id c }, sys), c)

/-- Body of `broadcast`'s `retain` closure folded over the entries:
send to each connection, keep every entry (`retain` always returns true),
and collect each `SendError` in iteration order. -/
def broadcastAux (event data : String) : ConnMap → ConnMap × List String
  | [] => ([], [])
  | (sid, c) :: rest =>
    let step := c.send event data
    let out := broadcastAux event data rest
    match step.2 with
    | Except.ok _ => ((sid, step.1) :: out.1, out.2)
    | Except.error e => ((sid, step.1) :: out.1, e :: out.2)

/-- `broadcast`: attempt send on every entry, remove none, return `Ok` when
no failure occurred and otherwise the list of all collected failures. -/
def SSE.broadcast (sse : SSE) (event data : String) :
    SSE × Except (List String) Unit :=
  let out := broadcastAux event data sse.connections
  ({ connections := out.1 },
   if out.2.isEmpty then Except.ok () else Except.error out.2)

/-- Registry `send`: `connections.get(session_id).map(|c| c.send(event, data))`.
The entry's channel state is updated in place; no entry is added or
removed. -/
def SSE.send (sse : SSE) (session_id : Nat) (event data : String) :
    SSE × Option (Except String Unit) :=
  match lookupConn sse.connections session_id with
  | none => (sse, none)
  | some c =>
    let step := c.send event data
    ({ connections := insertConn sse.connections session_id step.1 }, some step.2)

/-- `remove_connection`: remove the entry for the id; if one was removed
and its `remove_session_actor_on_remove` flag is set, perform one
cascade-remove into the session subsystem. -/
def SSE.remove_connection (sse : SSE) (sys : Sessions) (session_id : Nat) :
    SSE × Sessions :=
  match lookupConn sse.connections session_id with
  | none => (sse, sys)
  | some c =>
    ({ connections := eraseConn sse.connections session_id },
     if c.remove_session_actor_on_remove then sys.cascadeRemove session_id
     else sys)

/-- One iteration of the loop in `spawn_connection_remover` folded over the
entries: `retain(|session_id, connection| ...)` — ping each connection,
keep it iff the ping succeeded, and on failure cascade-remove the session
actor when the flag is set. -/
def sweepAux : ConnMap → Sessions → ConnMap × Sessions
  | [], sys => ([], sys)
  | (sid, c) :: rest, sys =>
    let step := c.send "ping" ""
    match step.2 with
    | Except.ok _ =>
      let out := sweepAux rest sys
      ((sid, step.1) :: out.1, out.2)
    | Except.error _ =>
      sweepAux rest
        (if c.remove_session_actor_on_remove then sys.cascadeRemove sid else sys)

/-- One pass of the liveness sweep spawned by `spawn_connection_remover`. -/
def SSE.connectionRemoverPass (sse : SSE) (sys : Sessions) : SSE × Sessions :=
  let out := sweepAux sse.connections sys
  ({ connections := out.1 }, out.2)

/-- Whether a ping send to this connection succeeds. -/
def pingSucceeds (c : Connection) : Bool :=
  match (c.send "ping" "").2 with
  | Except.ok _ => true
  | Except.error _ => false

/-! ## Basic lemmas about the embedded operations -/

theorem Connection.send_alive (c : Connection) (e d : String)
    (h : c.receiverAlive = true) :
    c.send e d = ({ c with sent := c.sent ++ [frameMessage e d] }, Except.ok ()) := by
  simp [Connection.send, h]

theorem Connection.send_dead (c : Connection) (e d : String)
    (h : c.receiverAlive = false) :
    c.send e d = (c, Except.error (frameMessage e d)) := by
  simp [Connection.send, h]

theorem pingSucceeds_eq (c : Connection) : pingSucceeds c = c.receiverAlive := by
  cases h : c.receiverAlive with
  | false => simp [pingSucceeds, Connection.send_dead c _ _ h]
  | true => simp [pingSucceeds, Connection.send_alive c _ _ h]

theorem lookup_isSome_iff_mem (m : ConnMap) (k : Nat) :
    (lookupConn m k).isSome = true ↔ k ∈ m.map Prod.fst := by
  induction m with
  | nil => simp [lookupConn]
  | cons hd tl ih =>
    obtain ⟨k₀, c₀⟩ := hd
    by_cases h0 : k₀ = k
    · subst h0; simp [lookupConn]
    · have h0' : ¬k = k₀ := fun h => h0 h.symm
      simp [lookupConn, h0, h0', ih]

theorem lookup_insert (m : ConnMap) (k : Nat) (c : Connection) (k' : Nat) :
    lookupConn (insertConn m k c) k'
      = if k' = k then some c else lookupConn m k' := by
  induction m with
  | nil =>
    by_cases hk : k' = k
    · subst hk; simp [insertConn, lookupConn]
    · have hk' : ¬k = k' := fun h => hk h.symm
      simp [insertConn, lookupConn, hk, hk']
  | cons hd tl ih =>
    obtain ⟨k₀, c₀⟩ := hd
    by_cases h0 : k₀ = k
    · subst h0
      by_cases hk : k' = k₀
      · subst hk; simp [insertConn, lookupConn]
      · have hk' : ¬k₀ = k' := fun h => hk h.symm
        simp [insertConn, lookupConn, hk, hk']
    · by_cases hk0 : k₀ = k'
      · subst hk0
        have hne : ¬k₀ = k := h0
        simp [insertConn, lookupConn, h0, hne]
      · simp [insertConn, lookupConn, h0, hk0, ih]

theorem keys_insert (m : ConnMap) (k : Nat) (c : Connection) :
    (insertConn m k c).map Prod.fst
      = if (lookupConn m k).isSome then m.map Prod.fst
        else m.map Prod.fst ++ [k] := by
  induction m with
  | nil => simp [insertConn, lookupConn]
  | cons hd tl ih =>
    obtain ⟨k₀, c₀⟩ := hd
    by_cases h0 : k₀ = k
    · subst h0; simp [insertConn, lookupConn]
    · have h0' : ¬k = k₀ := fun h => h0 h.symm
      by_cases htl : (lookupConn tl k).isSome
      · simp [insertConn, lookupConn, h0, h0', htl, ih]
      · simp [insertConn, lookupConn, h0, h0', htl, ih]

theorem nodup_insert (m : ConnMap) (k : Nat) (c : Connection)
    (h : (m.map Prod.fst).Nodup) :
    ((insertConn m k c).map Prod.fst).Nodup := by
  rw [keys_insert]
  by_cases hp : (lookupConn m k).isSome
  · simpa [hp] using h
  · have hmem : k ∉ m.map Prod.fst := by
      intro hk
      exact hp ((lookup_isSome_iff_mem m k).mpr hk)
    simp only [hp, if_false, Bool.false_eq_true]
    exact List.Nodup.append h (List.nodup_singleton k)
      (fun a ha hak => hmem (by
        simp only [List.mem_singleton] at hak
        exact hak ▸ ha))

theorem lookup_erase_ne (m : ConnMap) (k k' : Nat) (hk : k' ≠ k) :
    lookupConn (eraseConn m k) k' = lookupConn m k' := by
  induction m with
  | nil => simp [eraseConn]
  | cons hd tl ih =>
    obtain ⟨k₀, c₀⟩ := hd
    by_cases h0 : k₀ = k
    · subst h0
      have hk' : ¬k₀ = k' := fun h => hk h.symm
      simp [eraseConn, lookupConn, hk']
    · by_cases hk0 : k₀ = k'
      · subst hk0
        simp [eraseConn, lookupConn, h0]
      · simp [eraseConn, lookupConn, h0, hk0, ih]

theorem keys_erase_sublist (m : ConnMap) (k : Nat) :
    ((eraseConn m k).map Prod.fst).Sublist (m.map Prod.fst) := by
  induction m with
  | nil => simp [eraseConn]
  | cons hd tl ih =>
    obtain ⟨k₀, c₀⟩ := hd
    by_cases h0 : k₀ = k
    · subst h0
      have he : eraseConn ((k₀, c₀) :: tl) k₀ = tl := by simp [eraseConn]
      rw [he]
      exact List.sublist_cons_self _ _
    · simpa [eraseConn, h0] using List.Sublist.cons₂ k₀ ih

theorem nodup_erase (m : ConnMap) (k : Nat) (h : (m.map Prod.fst).Nodup) :
    ((eraseConn m k).map Prod.fst).Nodup :=
  (keys_erase_sublist m k).nodup h

theorem lookup_none_of_not_mem (m : ConnMap) (k : Nat)
    (h : k ∉ m.map Prod.fst) : lookupConn m k = none := by
  induction m with
  | nil => simp [lookupConn]
  | cons hd tl ih =>
    obtain ⟨k₀, c₀⟩ := hd
    simp only [List.map_cons, List.mem_cons, not_or] at h
    have h1 : ¬k₀ = k := fun hh => h.1 hh.symm
    simp [lookupConn, h1, ih h.2]

theorem lookup_erase_self (m : ConnMap) (k : Nat)
    (h : (m.map Prod.fst).Nodup) :
    lookupConn (eraseConn m k) k = none := by
  induction m with
  | nil => simp [eraseConn, lookupConn]
  | cons hd tl ih =>
    obtain ⟨k₀, c₀⟩ := hd
    simp only [List.map_cons, List.nodup_cons] at h
    by_cases h0 : k₀ = k
    · subst h0
      have he : eraseConn ((k₀, c₀) :: tl) k₀ = tl := by simp [eraseConn]
      rw [he]
      exact lookup_none_of_not_mem tl k₀ h.1
    · simp [eraseConn, lookupConn, h0, ih h.2]

theorem keys_insert_of_present (m : ConnMap) (k : Nat) (c : Connection)
    (h : (lookupConn m k).isSome) :
    (insertConn m k c).map Prod.fst = m.map Prod.fst := by
  rw [keys_insert]
  simp [h]

theorem lookup_isSome_of_keys_eq (m m' : ConnMap)
    (h : m.map Prod.fst = m'.map Prod.fst) (k : Nat) :
    (lookupConn m k).isSome = (lookupConn m' k).isSome := by
  rw [Bool.eq_iff_iff, lookup_isSome_iff_mem, lookup_isSome_iff_mem, h]

/-! ## Characterizations of the sweep and broadcast folds -/

theorem sweepAux_fst (m : ConnMap) (sys : Sessions) :
    (sweepAux m sys).1
      = (m.filter (fun p => pingSucceeds p.2)).map
          (fun p => (p.1, (p.2.send "ping" "").1)) := by
  induction m generalizing sys with
  | nil => simp [sweepAux]
  | cons hd tl ih =>
    obtain ⟨sid, c⟩ := hd
    cases hAlive : c.receiverAlive with
    | true =>
      simp only [sweepAux, Connection.send_alive c "ping" "" hAlive]
      simp [pingSucceeds_eq, hAlive, ih, Connection.send_alive c "ping" "" hAlive]
    | false =>
      simp only [sweepAux, Connection.send_dead c "ping" "" hAlive]
      simp [pingSucceeds_eq, hAlive, ih]

theorem sweepAux_removeCalls (m : ConnMap) (sys : Sessions) :
    (sweepAux m sys).2.removeCalls
      = sys.removeCalls
        ++ (m.filter (fun p =>
              !pingSucceeds p.2 && p.2.remove_session_actor_on_remove)).map
            Prod.fst := by
  induction m generalizing sys with
  | nil => simp [sweepAux]
  | cons hd tl ih =>
    obtain ⟨sid, c⟩ := hd
    cases hAlive : c.receiverAlive with
    | true =>
      simp only [sweepAux, Connection.send_alive c "ping" "" hAlive]
      simp [pingSucceeds_eq, hAlive, ih]
    | false =>
      simp only [sweepAux, Connection.send_dead c "ping" "" hAlive]
      cases hFlag : c.remove_session_actor_on_remove with
      | true =>
        simp [pingSucceeds_eq, hAlive, hFlag, ih, Sessions.cascadeRemove]
      | false =>
        simp [pingSucceeds_eq, hAlive, hFlag, ih]

theorem broadcastAux_fst (e d : String) (m : ConnMap) :
    (broadcastAux e d m).1 = m.map (fun p => (p.1, (p.2.send e d).1)) := by
  induction m with
  | nil => simp [broadcastAux]
  | cons hd tl ih =>
    obtain ⟨sid, c⟩ := hd
    cases hAlive : c.receiverAlive with
    | true =>
      simp only [broadcastAux, Connection.send_alive c e d hAlive]
      simp [ih, Connection.send_alive c e d hAlive]
    | false =>
      simp only [broadcastAux, Connection.send_dead c e d hAlive]
      simp [ih, Connection.send_dead c e d hAlive]

theorem broadcastAux_errors (e d : String) (m : ConnMap) :
    (broadcastAux e d m).2
      = (m.filter (fun p => !p.2.receiverAlive)).map
          (fun _ => frameMessage e d) := by
  induction m with
  | nil => simp [broadcastAux]
  | cons hd tl ih =>
    obtain ⟨sid, c⟩ := hd
    cases hAlive : c.receiverAlive with
    | true =>
      simp only [broadcastAux, Connection.send_alive c e d hAlive]
      simp [hAlive, ih]
    | false =>
      simp only [broadcastAux, Connection.send_dead c e d hAlive]
      simp [hAlive, ih]

/-! ## Claim theorems -/

/-- C1: one pass of the liveness sweep pings every current entry; afterwards
the map contains exactly the entries whose ping send succeeded (each with the
ping frame delivered to its channel), and the cascade-remove trace grows by
exactly one call per evicted entry whose cascade flag is set, keyed by that
entry's session id. -/
theorem sweep_pass_spec (sse : SSE) (sys : Sessions) :
    (sse.connectionRemoverPass sys).1.connections
        = (sse.connections.filter (fun p => pingSucceeds p.2)).map
            (fun p => (p.1, (p.2.send "ping" "").1))
    ∧ (sse.connectionRemoverPass sys).2.removeCalls
        = sys.removeCalls
          ++ (sse.connections.filter (fun p =>
                !pingSucceeds p.2
                  && p.2.remove_session_actor_on_remove)).map Prod.fst :=
  ⟨sweepAux_fst sse.connections sys, sweepAux_removeCalls sse.connections sys⟩

/-- C2: `broadcast` attempts send on every entry and removes none (every
key stays reachable by lookup); it returns `Ok` exactly when no entry has a
dropped consumer, and otherwise an error list with exactly one entry per
dead consumer. -/
theorem broadcast_spec (sse : SSE) (event data : String) :
    (sse.broadcast event data).1.connections
        = sse.connections.map (fun p => (p.1, (p.2.send event data).1))
    ∧ (sse.broadcast event data).1.connections.map Prod.fst
        = sse.connections.map Prod.fst
    ∧ (∀ sid, (lookupConn (sse.broadcast event data).1.connections sid).isSome
          = (lookupConn sse.connections sid).isSome)
    ∧ (sse.broadcast event data).2
        = (if (sse.connections.filter (fun p => !p.2.receiverAlive)).length = 0
           then Except.ok ()
           else Except.error
             ((sse.connections.filter (fun p => !p.2.receiverAlive)).map
               (fun _ => frameMessage event data)))
    ∧ ((sse.connections.filter (fun p => !p.2.receiverAlive)).map
        (fun _ => frameMessage event data)).length
        = (sse.connections.filter (fun p => !p.2.receiverAlive)).length := by
  have hfst : (sse.broadcast event data).1.connections
      = sse.connections.map (fun p => (p.1, (p.2.send event data).1)) := by
    simp [SSE.broadcast, broadcastAux_fst]
  have hkeys : (sse.broadcast event data).1.connections.map Prod.fst
      = sse.connections.map Prod.fst := by
    rw [hfst, List.map_map]
    rfl
  refine ⟨hfst, hkeys, fun sid => lookup_isSome_of_keys_eq _ _ hkeys sid, ?_, by simp⟩
  have herr := broadcastAux_errors event data sse.connections
  by_cases hE : (sse.connections.filter (fun p => !p.2.receiverAlive)) = []
  · simp [SSE.broadcast, herr, hE]
  · have hlen : (sse.connections.filter (fun p => !p.2.receiverAlive)).length ≠ 0 :=
      fun hl => hE (List.length_eq_zero.mp hl)
    simp [SSE.broadcast, herr, hE, hlen]

/-- C3: registry `send` returns `none` when no entry exists for the id
(never a send failure), and otherwise `some` of the forwarded
`Connection.send` result; in either case no entry is added or removed. -/
theorem send_spec (sse : SSE) (sid : Nat) (event data : String) :
    (sse.send sid event data).1.connections.map Prod.fst
        = sse.connections.map Prod.fst
    ∧ (match lookupConn sse.connections sid with
       | none => (sse.send sid event data).2 = none
       | some c => (sse.send sid event data).2 = some ((c.send event data).2)) := by
  cases hl : lookupConn sse.connections sid with
  | none => simp [SSE.send, hl]
  | some c =>
    have hp : (lookupConn sse.connections sid).isSome := by simp [hl]
    constructor
    · simp only [SSE.send, hl]
      exact keys_insert_of_present sse.connections sid _ hp
    · simp [SSE.send, hl]

/-- C4: the registry holds at most one entry per session id; every operation
preserves the no-duplicate-keys invariant, and `new_connection` for a key
already present replaces that entry in place (key set unchanged, lookup now
yields the new connection). -/
theorem registry_unique_key_invariant (sse : SSE) (sys : Sessions)
    (h : keysNodup sse) :
    (∀ sid freshId, keysNodup (sse.new_connection sys sid freshId).1.1)
    ∧ (∀ sid e d, keysNodup (sse.send sid e d).1)
    ∧ (∀ e d, keysNodup (sse.broadcast e d).1)
    ∧ (∀ sid, keysNodup (sse.remove_connection sys sid).1)
    ∧ keysNodup (sse.connectionRemoverPass sys).1
    ∧ (∀ s, (sse.connections.filter (fun p => p.1 = s)).length ≤ 1)
    ∧ (∀ s freshId,
        (sse.new_connection sys (some s) freshId).1.1.connections.map Prod.fst
          = (if (lookupConn sse.connections s).isSome
             then sse.connections.map Prod.fst
             else sse.connections.map Prod.fst ++ [s]))
    ∧ (∀ s freshId,
        lookupConn (sse.new_connection sys (some s) freshId).1.1.connections s
          = some (Connection.new (some s) freshId)) := by
  refine ⟨?_, ?_, ?_, ?_, ?_, ?_, ?_, ?_⟩
  · intro sid freshId
    exact nodup_insert _ _ _ h
  · intro sid e d
    cases hl : lookupConn sse.connections sid with
    | none => simpa [SSE.send, hl] using h
    | some c =>
      unfold keysNodup
      simp only [SSE.send, hl]
      rw [keys_insert_of_present _ _ _ (by simp [hl])]
      exact h
  · intro e d
    unfold keysNodup
    have hb : (sse.broadcast e d).1.connections
        = sse.connections.map (fun p => (p.1, (p.2.send e d).1)) := by
      simp [SSE.broadcast, broadcastAux_fst]
    rw [hb, List.map_map]
    exact h
  · intro sid
    cases hl : lookupConn sse.connections sid with
    | none => simpa [SSE.remove_connection, hl] using h
    | some c =>
      unfold keysNodup
      simp only [SSE.remove_connection, hl]
      exact nodup_erase _ _ h
  · unfold keysNodup
    have hk : (sse.connectionRemoverPass sys).1.connections.map Prod.fst
        = (sse.connections.filter (fun p => pingSucceeds p.2)).map Prod.fst := by
      show ((sweepAux sse.connections sys).1).map Prod.fst = _
      rw [sweepAux_fst, List.map_map]
      rfl
    rw [hk]
    exact (List.Sublist.map Prod.fst (List.filter_sublist _)).nodup h
  · intro s
    have h1 := List.nodup_iff_count_le_one.mp h s
    calc (sse.connections.filter (fun p => p.1 = s)).length
        = List.count s (sse.connections.map Prod.fst) := by
          rw [List.count, ← List.countP_eq_length_filter, List.countP_map]
          congr 1
      _ ≤ 1 := h1
  · intro s freshId
    show (insertConn sse.connections (Connection.new (some s) freshId).session_id
        (Connection.new (some s) freshId)).map Prod.fst = _
    rw [show (Connection.new (some s) freshId).session_id = s from rfl, keys_insert]
  · intro s freshId
    show lookupConn (insertConn sse.connections
        (Connection.new (some s) freshId).session_id
        (Connection.new (some s) freshId)) s = _
    rw [show (Connection.new (some s) freshId).session_id = s from rfl, lookup_insert]
    simp

/-- A sample registry state used by the witnesses below: one connection with
session id 5 whose channel consumer is alive. -/
def sampleConnA : Connection :=
  { remove_session_actor_on_remove := true
    session_id := 5
    receiverAlive := true
    sent := [] }

/-- A sample registry holding `sampleConnA` under key 5. -/
def sampleSSE : SSE := { connections := [(5, sampleConnA)] }

/-- A sample session subsystem with an actor for session 5 and an empty
cascade trace. -/
def sampleSys : Sessions := { actors := [5], removeCalls := [] }

/-- Witness for C4 at the sample state. -/
theorem registry_unique_key_invariant_witness :
    keysNodup sampleSSE
    ∧ ((∀ sid freshId, keysNodup (sampleSSE.new_connection sampleSys sid freshId).1.1)
      ∧ (∀ sid e d, keysNodup (sampleSSE.send sid e d).1)
      ∧ (∀ e d, keysNodup (sampleSSE.broadcast e d).1)
      ∧ (∀ sid, keysNodup (sampleSSE.remove_connection sampleSys sid).1)
      ∧ keysNodup (sampleSSE.connectionRemoverPass sampleSys).1
      ∧ (∀ s, (sampleSSE.connections.filter (fun p => p.1 = s)).length ≤ 1)
      ∧ (∀ s freshId,
          (sampleSSE.new_connection sampleSys (some s) freshId).1.1.connections.map
              Prod.fst
            = (if (lookupConn sampleSSE.connections s).isSome
               then sampleSSE.connections.map Prod.fst
               else sampleSSE.connections.map Prod.fst ++ [s]))
      ∧ (∀ s freshId,
          lookupConn (sampleSSE.new_connection sampleSys (some s) freshId).1.1.connections s
            = some (Connection.new (some s) freshId))) :=
  ⟨by decide, registry_unique_key_invariant sampleSSE sampleSys (by decide)⟩

/-- C5: `Connection::new` sets the cascade flag to false and uses the freshly
generated id when no session id is supplied, and sets the flag to true and
keeps the supplied id otherwise. -/
theorem connection_new_spec (s freshId : Nat) :
    ((Connection.new none freshId).remove_session_actor_on_remove = false
      ∧ (Connection.new none freshId).session_id = freshId)
    ∧ ((Connection.new (some s) freshId).remove_session_actor_on_remove = true
      ∧ (Connection.new (some s) freshId).session_id = s) := by
  simp [Connection.new]

/-- C6: on a live channel, `Connection::send` pushes exactly one message,
framed as `event: <e>\ndata: <d>\n\n`; after `new_connection(Some(s))`,
registry `send(s, e, d)` succeeds and the connection's channel (what the
paired EventStream yields) holds exactly that one framed message. -/
theorem connection_send_framing (sse : SSE) (sys : Sessions)
    (s freshId : Nat) (e d : String) (flag : Bool) (sid : Nat)
    (q : List String) :
    (Connection.mk flag sid true q).send e d
      = (Connection.mk flag sid true (q ++ [frameMessage e d]), Except.ok ())
    ∧ frameMessage e d = "event: " ++ e ++ "\n" ++ "data: " ++ d ++ "\n\n"
    ∧ ((sse.new_connection sys (some s) freshId).1.1.send s e d).2
        = some (Except.ok ())
    ∧ lookupConn (((sse.new_connection sys (some s) freshId).1.1.send s e d).1).connections s
        = some (Connection.mk true s true [frameMessage e d]) := by
  have h1 : lookupConn (insertConn sse.connections s (Connection.mk true s true [])) s
      = some (Connection.mk true s true []) := by
    rw [lookup_insert]
    simp
  refine ⟨?_, ?_, ?_, ?_⟩
  · simp [Connection.send]
  · simp [frameMessage, String.join]
  · show (SSE.send _ s e d).2 = _
    simp [SSE.send, SSE.new_connection, Connection.new, h1, Connection.send]
  · show lookupConn (SSE.send _ s e d).1.connections s = _
    simp only [SSE.send, SSE.new_connection, Connection.new]
    simp only [Option.isSome_some, Option.getD_some] at h1 ⊢
    rw [h1]
    simp only [Connection.send]
    rw [lookup_insert]
    simp

/-- C7: `remove_connection` is idempotent (the second of two successive
calls is a no-op, so the cascade fires at most once); a single call cascades
exactly once for an entry created with an explicit session id and never for
an entry created with a generated id. -/
theorem remove_connection_spec (sse : SSE) (sys : Sessions) (s freshId : Nat)
    (h : keysNodup sse) :
    ((sse.remove_connection sys s).1.remove_connection
        (sse.remove_connection sys s).2 s
      = sse.remove_connection sys s)
    ∧ (match lookupConn sse.connections s with
       | some c =>
           (sse.remove_connection sys s).2.removeCalls
             = sys.removeCalls
               ++ (if c.remove_session_actor_on_remove then [s] else [])
       | none => (sse.remove_connection sys s).2 = sys)
    ∧ ((sse.new_connection sys (some s) freshId).1.1.remove_connection
          (sse.new_connection sys (some s) freshId).1.2 s).2.removeCalls
        = sys.removeCalls ++ [s]
    ∧ ((sse.new_connection sys none freshId).1.1.remove_connection
          (sse.new_connection sys none freshId).1.2 freshId).2
        = sys := by
  refine ⟨?_, ?_, ?_, ?_⟩
  · cases hl : lookupConn sse.connections s with
    | none => simp [SSE.remove_connection, hl]
    | some c =>
      have h2 : lookupConn (eraseConn sse.connections s) s = none :=
        lookup_erase_self _ _ h
      simp [SSE.remove_connection, hl, h2]
  · cases hl : lookupConn sse.connections s with
    | none => simp [SSE.remove_connection, hl]
    | some c =>
      cases hf : c.remove_session_actor_on_remove with
      | true => simp [SSE.remove_connection, hl, hf, Sessions.cascadeRemove]
      | false => simp [SSE.remove_connection, hl, hf]
  · have h1 : lookupConn (insertConn sse.connections s (Connection.mk true s true [])) s
        = some (Connection.mk true s true []) := by
      rw [lookup_insert]
      simp
    simp [SSE.new_connection, Connection.new, SSE.remove_connection, h1,
      Sessions.cascadeRemove]
  · have h1 : lookupConn
        (insertConn sse.connections freshId (Connection.mk false freshId true []))
        freshId
        = some (Connection.mk false freshId true []) := by
      rw [lookup_insert]
      simp
    simp [SSE.new_connection, Connection.new, SSE.remove_connection, h1]

/-- Witness for C7 at the sample state. -/
theorem remove_connection_spec_witness :
    keysNodup sampleSSE
    ∧ (((sampleSSE.remove_connection sampleSys 5).1.remove_connection
          (sampleSSE.remove_connection sampleSys 5).2 5
        = sampleSSE.remove_connection sampleSys 5)
      ∧ (match lookupConn sampleSSE.connections 5 with
         | some c =>
             (sampleSSE.remove_connection sampleSys 5).2.removeCalls
               = sampleSys.removeCalls
                 ++ (if c.remove_session_actor_on_remove then [5] else [])
         | none => (sampleSSE.remove_connection sampleSys 5).2 = sampleSys)
      ∧ ((sampleSSE.new_connection sampleSys (some 5) 7).1.1.remove_connection
            (sampleSSE.new_connection sampleSys (some 5) 7).1.2 5).2.removeCalls
          = sampleSys.removeCalls ++ [5]
      ∧ ((sampleSSE.new_connection sampleSys none 7).1.1.remove_connection
            (sampleSSE.new_connection sampleSys none 7).1.2 7).2
          = sampleSys) :=
  ⟨by decide, remove_connection_spec sampleSSE sampleSys 5 7 (by decide)⟩

/-- C8: replacing an existing entry via `new_connection(Some(s))` makes no
cascade-remove call into the session subsystem (the `Sessions` state is
untouched, whatever the replaced entry's flag was) and changes no map entry
other than the one for key `s`. -/
theorem new_connection_replacement_frame (sse : SSE) (sys : Sessions)
    (s freshId : Nat) :
    (sse.new_connection sys (some s) freshId).1.2 = sys
    ∧ ∀ k, lookupConn (sse.new_connection sys (some s) freshId).1.1.connections k
        = if k = s then some (Connection.new (some s) freshId)
          else lookupConn sse.connections k := by
  constructor
  · rfl
  · intro k
    show lookupConn (insertConn sse.connections
        (Connection.new (some s) freshId).session_id
        (Connection.new (some s) freshId)) k = _
    rw [show (Connection.new (some s) freshId).session_id = s from rfl,
      lookup_insert]

/-- C9: immediately after `new_connection` returns connection `c`, the
registry holds `c` under `c.session_id()`, so a registry `send` to that id
forwards to `c` and returns `some` of its result. -/
theorem new_connection_then_send (sse : SSE) (sys : Sessions)
    (sid : Option Nat) (freshId : Nat) (e d : String) :
    lookupConn (sse.new_connection sys sid freshId).1.1.connections
        ((sse.new_connection sys sid freshId).2).session_id
      = some ((sse.new_connection sys sid freshId).2)
    ∧ ((sse.new_connection sys sid freshId).1.1.send
          ((sse.new_connection sys sid freshId).2).session_id e d).2
        = some (((sse.new_connection sys sid freshId).2).send e d).2 := by
  have h1 : lookupConn (sse.new_connection sys sid freshId).1.1.connections
      ((sse.new_connection sys sid freshId).2).session_id
      = some ((sse.new_connection sys sid freshId).2) := by
    show lookupConn (insertConn sse.connections
        (Connection.new sid freshId).session_id (Connection.new sid freshId))
        (Connection.new sid freshId).session_id = _
    rw [lookup_insert]
    simp only [if_pos rfl]
    rfl
  refine ⟨h1, ?_⟩
  show (SSE.send _ _ e d).2 = _
  simp [SSE.send, h1]

/-- C10: when the receive side is gone, `Connection::send` fails and the
`SendError` carries exactly the undelivered framed message
`event: <e>\ndata: <d>\n\n`. -/
theorem send_failure_payload (e d : String) (flag : Bool) (sid : Nat)
    (q : List String) :
    (Connection.mk flag sid false q).send e d
      = (Connection.mk flag sid false q, Except.error (frameMessage e d))
    ∧ frameMessage e d = "event: " ++ e ++ "\n" ++ "data: " ++ d ++ "\n\n" := by
  constructor
  · simp [Connection.send]
  · simp [frameMessage, String.join]

end SSEModel
